import Mathlib

/-!
A shallow embedding of `onadata/libs/utils/google_sheets.py` (kobocat).

The module under verification is orchestration glue over a remote
spreadsheet API.  We embed it as pure state-passing functions that, in
addition to their return values, emit a trace of the remote API calls
they perform (`ApiCall`).  Remote worksheet objects become `Worksheet`
records (title and dimensions); Python dictionaries become ordered
association lists; Python `None` becomes `Value.vnone`.

Collaborator code that lives in this repository but outside the provided
sources (`ExportBuilder`, `common_tags`, the CSV builder, the stored
XLSForm file) is either modelled from the specification's words (marked
`Modelled from the spec:`) or taken as an abstract parameter, as
documented on each definition.
-/

namespace GoogleSheets

/-- A Python value that can appear in a cell or a row dict: `None`, a
string, or an integer. -/
inductive Value
  | vnone
  | vstr (s : String)
  | vint (n : Int)
deriving DecidableEq, Repr

/-- A Python dict used as a data row: keys are field names. -/
abbrev Dict := List (String × Value)

/-- One remote call against the Google Drive / Sheets API, as performed by
the code under `src/onadata/libs/utils/google_sheets.py`. -/
inductive ApiCall
  | login
  | newSpreadsheet (title : String)
  | addServiceAccount
  | resize (wsTitle : String) (cols : Nat)
  | updateCells (wsTitle : String) (cells : List (Nat × Nat × Value))
  | addWorksheet (title : String) (rows cols : Nat)
  | appendRow (wsTitle : String) (values : List Value)
  | delWorksheet (title : String)
deriving DecidableEq, Repr

/-- A remote worksheet object (`gspread.Worksheet`): the state the
exporter reads back from it is its title and its dimensions. -/
structure Worksheet where
  title : String
  rowCount : Nat
  colCount : Nat
deriving DecidableEq, Repr

/-- Python `d.get(k)` on a row dict, `None` when the key is absent. -/
def dget (d : Dict) (k : String) : Value :=
  ((d.find? (fun p => decide (p.1 = k))).map Prod.snd).getD Value.vnone

/-- Python `d[k] = v` on an ordered dict: overwrite in place when the key
is present, append otherwise. -/
def dset {α : Type} (d : List (String × α)) (k : String) (v : α) :
    List (String × α) :=
  if (d.find? (fun p => decide (p.1 = k))).isSome then
    d.map (fun p => if p.1 = k then (k, v) else p)
  else d ++ [(k, v)]

/-- Python `d.get(k)` returning an `Option` (used for dicts whose values
are not `Value`s). -/
def tget {α : Type} (d : List (String × α)) (k : String) : Option α :=
  (d.find? (fun p => decide (p.1 = k))).map Prod.snd

/-- Python `self.worksheets[section_name]`.  After `_create_worksheets`
every section name is present; the default is never reached there (in
Python a missing key would raise `KeyError`). -/
def wget (d : List (String × Worksheet)) (k : String) : Worksheet :=
  (tget d k).getD { title := "", rowCount := 0, colCount := 0 }

/-- `update_row(worksheet, index, values)`: widens the worksheet when the
values are wider than its column count, then performs one batched
`update_cells` call writing `values[i]` at row `index`, column `i + 1`. -/
def update_row (ws : Worksheet) (index : Nat) (values : List Value) :
    Worksheet × List ApiCall :=
  let data_width := values.length
  let ws2 :=
    if ws.colCount < data_width then { ws with colCount := data_width } else ws
  let tr : List ApiCall :=
    if ws.colCount < data_width then [ApiCall.resize ws.title data_width]
    else []
  (ws2, tr ++ [ApiCall.updateCells ws2.title
    (values.enum.map (fun p => (index, p.1 + 1, p.2)))])

/-- Modelled from the spec: the synthetic field names come from
`onadata.libs.utils.common_tags`, which is not under `src/`.  The spec
names them "synthetic fields (index, parent index, parent table name)". -/
def INDEX : String := "_index"

/-- Modelled from the spec: see `INDEX`. -/
def PARENT_INDEX : String := "_parent_index"

/-- Modelled from the spec: see `INDEX`. -/
def PARENT_TABLE_NAME : String := "_parent_table_name"

/-- Modelled from the spec: `ExportBuilder.EXTRA_FIELDS` is not under
`src/`; the spec lists the synthetic fields in the order index, parent
index, parent table name. -/
def EXTRA_FIELDS : List String := [INDEX, PARENT_INDEX, PARENT_TABLE_NAME]

/-- An element of a section of the XForm schema: an xpath and a title. -/
structure Element where
  xpath : String
  title : String
deriving DecidableEq, Repr

/-- A section of the XForm schema (the main form or a repeat group): a
name and an ordered list of elements. -/
structure Sect where
  name : String
  elements : List Element
deriving DecidableEq, Repr

/-- `"_".join(section_name.split("/"))` from `_create_worksheets`.
Splitting on the single character `/` and joining with the single
character `_` replaces every `/` by `_` and leaves every other character
unchanged, so it is embedded as that per-character replacement. -/
def slashToUnderscore (name : String) : String :=
  String.mk (name.data.map (fun c => if c = '/' then '_' else c))

/-- Modelled from the spec: `ExportBuilder.get_valid_sheet_name` is not
under `src/`.  The spec says worksheet titles are "derived from section
names (slash-to-underscore substitution plus deduplication)"; the
substitution is done by the caller, so this function performs the
deduplication: it returns the desired name itself when it is not among
the existing titles, and otherwise extends it until it is fresh.  With
`existing.length + 1` pairwise distinct candidates, a fresh one always
exists. -/
def get_valid_sheet_name (name : String) (existing : List String) : String :=
  (((List.range (existing.length + 1)).map
      (fun k => name ++ String.replicate k '_')).find?
    (fun c => decide (c ∉ existing))).getD name

/-- The mutable state of a `SheetsExportBuilder`: the map of section
names to generated worksheet titles and the map of section names to
worksheet objects. -/
structure BuilderState where
  worksheet_titles : List (String × String)
  worksheets : List (String × Worksheet)
deriving DecidableEq, Repr

/-- The builder state at the start of an export (both dicts empty). -/
def initBuilderState : BuilderState :=
  { worksheet_titles := [], worksheets := [] }

/-- `_create_worksheets`: one worksheet per section, titled by
slash-to-underscore substitution on the section name deduplicated
against the titles generated so far, with one row and one column per
element plus the extra fields. -/
def _create_worksheets : BuilderState → List Sect → BuilderState × List ApiCall
  | st, [] => (st, [])
  | st, s :: rest =>
      let work_sheet_title :=
        get_valid_sheet_name (slashToUnderscore s.name)
          (st.worksheet_titles.map Prod.snd)
      let num_cols := s.elements.length + EXTRA_FIELDS.length
      let ws : Worksheet :=
        { title := work_sheet_title, rowCount := 1, colCount := num_cols }
      let st2 : BuilderState :=
        { worksheet_titles := dset st.worksheet_titles s.name work_sheet_title
          worksheets := dset st.worksheets s.name ws }
      let r := _create_worksheets st2 rest
      (r.1, ApiCall.addWorksheet work_sheet_title 1 num_cols :: r.2)

/-- The header row of a section: the element titles in element order
followed by the extra-field names. -/
def headerRow (s : Sect) : List Value :=
  s.elements.map (fun e => Value.vstr e.title) ++ EXTRA_FIELDS.map Value.vstr

/-- `_insert_headers`: writes each section's header row at row 1 of that
section's worksheet. -/
def _insert_headers :
    List (String × Worksheet) → List Sect →
      List (String × Worksheet) × List ApiCall
  | wsd, [] => (wsd, [])
  | wsd, s :: rest =>
      let ws := wget wsd s.name
      let u := update_row ws 1 (headerRow s)
      let r := _insert_headers (dset wsd s.name u.1) rest
      (r.1, u.2 ++ r.2)

/-- `worksheet_titles.get(data.get(PARENT_TABLE_NAME))`: the parent table
value is looked up in the section-name-to-title map; any miss (including
a `None` or non-string key) yields `None`. -/
def mapParentTitle (worksheet_titles : List (String × String)) :
    Value → Value
  | Value.vstr s =>
      match tget worksheet_titles s with
      | some t => Value.vstr t
      | none => Value.vnone
  | _ => Value.vnone

/-- The first statement of `write_row`: replace the row's parent-table
field with the generated worksheet title looked up in the map. -/
def parentFixed (worksheet_titles : List (String × String)) (data : Dict) :
    Dict :=
  dset data PARENT_TABLE_NAME
    (mapParentTitle worksheet_titles (dget data PARENT_TABLE_NAME))

/-- `SheetsExportBuilder.write_row`: fixes up the parent-table field and
appends the row `[data.get(f) for f in fields]` to the worksheet. -/
def write_row (data : Dict) (ws : Worksheet) (fields : List String)
    (worksheet_titles : List (String × String)) :
    Dict × Worksheet × List ApiCall :=
  let data2 := parentFixed worksheet_titles data
  (data2, { ws with rowCount := ws.rowCount + 1 },
    [ApiCall.appendRow ws.title (fields.map (fun f => dget data2 f))])

/-- The data attached to one section inside a joined-export record: the
main section carries a single row dict, repeats carry a list of rows. -/
inductive SectionData
  | row (r : Dict)
  | rows (rs : List Dict)
deriving DecidableEq, Repr

/-- A joined-export record: a dict from section name to section data. -/
abbrev Output := List (String × SectionData)

/-- `output.get(section_name, None)`. -/
def oget (output : Output) (k : String) : Option SectionData :=
  tget output k

/-- Modelled from the spec: `ExportBuilder.dict_to_joined_export`
composed with `decode_mongo_encoded_section_names` is not under `src/`
(the spec delegates "form-to-row flattening semantics" to the external
framework), so the joined export of one record is an abstract parameter:
it receives the indices state, the 1-based record index and the record,
and returns the per-section output together with the new indices
state. -/
abbrev JoinedFn := List (String × Nat) → Nat → Dict → Output × List (String × Nat)

/-- Modelled from the spec: `ExportBuilder.pre_process_row` is not under
`src/`, so row pre-processing is an abstract parameter. -/
abbrev PreFn := Dict → Sect → Dict

/-- The meta-field attachment in `_insert_data`: ensure the survey
section exists in the output, then set its `INDEX` to the record index
and its `PARENT_INDEX` to `-1`.  (If the survey section held a list,
Python would raise a `TypeError`; that entry is left unchanged here.) -/
def attachMeta (output : Output) (survey_name : String) (index : Int) :
    Output :=
  let output2 :=
    if (output.find? (fun p => decide (p.1 = survey_name))).isSome then output
    else output ++ [(survey_name, SectionData.row [])]
  output2.map (fun p =>
    if p.1 = survey_name then
      (p.1,
        match p.2 with
        | SectionData.row r =>
            SectionData.row
              (dset (dset r INDEX (Value.vint index)) PARENT_INDEX
                (Value.vint (-1)))
        | x => x)
    else p)

/-- The inner loop of `_insert_data` over the child rows of a repeat
section. -/
def writeRowsLoop (fields : List String)
    (worksheet_titles : List (String × String)) (pre : PreFn) (s : Sect) :
    Worksheet → List Dict → Worksheet × List ApiCall
  | ws, [] => (ws, [])
  | ws, r :: rest =>
      let w := write_row (pre r s) ws fields worksheet_titles
      let res := writeRowsLoop fields worksheet_titles pre s w.2.1 rest
      (res.1, w.2.2 ++ res.2)

/-- The loop of `_insert_data` over the sections, for one record's
output: looks up the section's worksheet and writes the section's row or
rows, skipping sections absent from the output. -/
def dataSectionLoop (worksheet_titles : List (String × String)) (pre : PreFn)
    (output : Output) :
    List (String × Worksheet) → List Sect →
      List (String × Worksheet) × List ApiCall
  | wsd, [] => (wsd, [])
  | wsd, s :: rest =>
      let fields := s.elements.map Element.xpath ++ EXTRA_FIELDS
      let ws := wget wsd s.name
      match oget output s.name with
      | some (SectionData.row r) =>
          let w := write_row (pre r s) ws fields worksheet_titles
          let res :=
            dataSectionLoop worksheet_titles pre output (dset wsd s.name w.2.1)
              rest
          (res.1, w.2.2 ++ res.2)
      | some (SectionData.rows rs) =>
          let w := writeRowsLoop fields worksheet_titles pre s ws rs
          let res :=
            dataSectionLoop worksheet_titles pre output (dset wsd s.name w.1)
              rest
          (res.1, w.2 ++ res.2)
      | none => dataSectionLoop worksheet_titles pre output wsd rest

/-- The loop of `_insert_data` over the records (`enumerate(data, 1)`):
computes the joined export of each record, attaches the meta fields, and
writes each section's data. -/
def dataRecordLoop (joined : JoinedFn) (pre : PreFn)
    (worksheet_titles : List (String × String)) (sections : List Sect)
    (survey_name : String) :
    List (String × Worksheet) → List (String × Nat) → Nat → List Dict →
      List (String × Worksheet) × List ApiCall
  | wsd, _, _, [] => (wsd, [])
  | wsd, indices, index, d :: rest =>
      let j := joined indices index d
      let output := attachMeta j.1 survey_name (Int.ofNat index)
      let r1 := dataSectionLoop worksheet_titles pre output wsd sections
      let r2 :=
        dataRecordLoop joined pre worksheet_titles sections survey_name r1.1
          j.2 (index + 1) rest
      (r2.1, r1.2 ++ r2.2)

/-- `_insert_data`: writes the data rows for each section, starting from
an empty indices dict and record index 1. -/
def _insert_data (joined : JoinedFn) (pre : PreFn) (st : BuilderState)
    (sections : List Sect) (survey_name : String) (data : List Dict) :
    List (String × Worksheet) × List ApiCall :=
  dataRecordLoop joined pre st.worksheet_titles sections survey_name
    st.worksheets [] 1 data

/-- `export_tabular`: create the worksheets, write the headers, write the
data. -/
def export_tabular (joined : JoinedFn) (pre : PreFn) (st : BuilderState)
    (sections : List Sect) (survey_name : String) (data : List Dict) :
    BuilderState × List ApiCall :=
  let c := _create_worksheets st sections
  let h := _insert_headers c.1.worksheets sections
  let d :=
    _insert_data joined pre { c.1 with worksheets := h.1 } sections
      survey_name data
  ({ c.1 with worksheets := d.1 }, c.2 ++ h.2 ++ d.2)

/-- The title of the flattened-data worksheet. -/
def FLATTENED_SHEET_TITLE : String := "raw"

/-- The n/a filter of `export_flattened`:
`[x if x != 'n/a' else '' for x in row]`. -/
def naFilterRow (row : List String) : List String :=
  row.map (fun x => if x = "n/a" then "" else x)

/-- The write loop of `export_flattened` (`enumerate(rows, 1)`). -/
def flattenedLoop : Worksheet → Nat → List (List String) →
    Worksheet × List ApiCall
  | ws, _, [] => (ws, [])
  | ws, index, r :: rest =>
      let u := update_row ws index (r.map Value.vstr)
      let res := flattenedLoop u.1 (index + 1) rest
      (res.1, u.2 ++ res.2)

/-- `export_flattened`, after the external CSV builder has produced the
flattened CSV: the argument is the CSV read back from disk, row by row.
Filters n/a entries, returns early when there are no rows, otherwise
creates the `raw` worksheet and writes the rows in order. -/
def export_flattened (csvRows : List (List String)) : List ApiCall :=
  let rows := csvRows.map naFilterRow
  let num_rows := rows.length
  if num_rows = 0 then []
  else
    let num_cols := (rows.getD 0 []).length
    let ws : Worksheet :=
      { title := FLATTENED_SHEET_TITLE, rowCount := num_rows,
        colCount := num_cols }
    ApiCall.addWorksheet FLATTENED_SHEET_TITLE num_rows num_cols ::
      (flattenedLoop ws 1 rows).2

/-- An XLSForm sheet as read by `xlrd`: a name, dimensions, and a grid of
cell values. -/
structure XlsSheet where
  name : String
  nrows : Nat
  ncols : Nat
  grid : List (List Value)
deriving DecidableEq, Repr

/-- `source_worksheet.cell_value(row, col)`. -/
def cell_value (sh : XlsSheet) (r c : Nat) : Value :=
  (sh.grid.getD r []).getD c Value.vnone

/-- The row-copy loop of `_insert_xlsform` for one source sheet
(`for row in xrange(num_rows)`). -/
def xlsRowsLoop (sh : XlsSheet) : Worksheet → List Nat →
    Worksheet × List ApiCall
  | ws, [] => (ws, [])
  | ws, r :: rest =>
      let u := update_row ws (r + 1)
        ((List.range sh.ncols).map (fun c => cell_value sh r c))
      let res := xlsRowsLoop sh u.1 rest
      (res.1, u.2 ++ res.2)

/-- The sheet-copy loop of `_insert_xlsform`
(`for wksht_nm in workbook.sheet_names()`). -/
def xlsSheetLoop : List XlsSheet → List ApiCall
  | [] => []
  | sh :: rest =>
      let ws : Worksheet :=
        { title := sh.name, rowCount := sh.nrows, colCount := sh.ncols }
      (ApiCall.addWorksheet sh.name sh.nrows sh.ncols ::
        (xlsRowsLoop sh ws (List.range sh.nrows)).2) ++ xlsSheetLoop rest

/-- `_insert_xlsform`: when the form has no stored XLS file the method
returns without any call; otherwise every sheet of the workbook is copied
to a new worksheet under its original name.  The workbook contents are an
input (in Python they are read from Django storage). -/
def _insert_xlsform : Option (List XlsSheet) → List ApiCall
  | none => []
  | some wb => xlsSheetLoop wb

/-- The configuration options of `SheetsExportBuilder` read from
`config` in `__init__`. -/
structure Config where
  spreadsheet_title : String
  flatten_repeated_fields : Bool
  export_xlsform : Bool
deriving DecidableEq, Repr

/-- The inputs of one export run: the schema sections, the survey name,
the submission records, the flattened CSV as read back from disk, and the
stored XLSForm workbook (none when the form has no XLS file). -/
structure ExportInput where
  sections : List Sect
  survey_name : String
  data : List Dict
  csvRows : List (List String)
  xlsform : Option (List XlsSheet)

/-- The titles of the worksheets added by a trace, in creation order. -/
def addedTitles (tr : List ApiCall) : List String :=
  tr.filterMap (fun e =>
    match e with
    | ApiCall.addWorksheet t _ _ => some t
    | _ => none)

/-- The body of `export`: the flattened or the tabular branch. -/
def exportBody (cfg : Config) (inp : ExportInput) (joined : JoinedFn)
    (pre : PreFn) : List ApiCall :=
  if cfg.flatten_repeated_fields then export_flattened inp.csvRows
  else
    (export_tabular joined pre initBuilderState inp.sections inp.survey_name
      inp.data).2

/-- The XLSForm step of `export`: runs only when `export_xlsform` is
set. -/
def exportXls (cfg : Config) (inp : ExportInput) : List ApiCall :=
  if cfg.export_xlsform then _insert_xlsform inp.xlsform else []

/-- The cleanup step of `export`: fetch the worksheet feed (the default
`Sheet1` plus every added worksheet) and delete every worksheet titled
`Sheet1`. -/
def exportDel (cfg : Config) (inp : ExportInput) (joined : JoinedFn)
    (pre : PreFn) : List ApiCall :=
  let feed := "Sheet1" ::
    addedTitles (exportBody cfg inp joined pre ++ exportXls cfg inp)
  (feed.filter (fun t => decide (t = "Sheet1"))).map ApiCall.delWorksheet

/-- `SheetsExportBuilder.export`: authenticate, create the spreadsheet,
share it with the service account, run the flattened or tabular export,
optionally insert the XLSForm sheets, and delete the default
worksheet. -/
def «export» (cfg : Config) (inp : ExportInput) (joined : JoinedFn)
    (pre : PreFn) : List ApiCall :=
  [ApiCall.login, ApiCall.newSpreadsheet cfg.spreadsheet_title,
    ApiCall.addServiceAccount]
    ++ exportBody cfg inp joined pre
    ++ exportXls cfg inp
    ++ exportDel cfg inp joined pre

/-- The call is the spreadsheet-creation call. -/
def isCreateSpreadsheet : ApiCall → Bool
  | ApiCall.newSpreadsheet _ => true
  | _ => false

/-- The call operates on a worksheet of the already-created spreadsheet
(creation, resizing, or row writing). -/
def wsOp : ApiCall → Bool
  | ApiCall.addWorksheet _ _ _ => true
  | ApiCall.resize _ _ => true
  | ApiCall.updateCells _ _ => true
  | ApiCall.appendRow _ _ => true
  | _ => false

/-- The call adds a worksheet. -/
def isAddWorksheet : ApiCall → Bool
  | ApiCall.addWorksheet _ _ _ => true
  | _ => false

/-- The call writes a row in place (a batched cell update, possibly with
a preparatory resize). -/
def isRowWrite : ApiCall → Bool
  | ApiCall.resize _ _ => true
  | ApiCall.updateCells _ _ => true
  | _ => false

/-- The call appends a data row. -/
def isAppendRow : ApiCall → Bool
  | ApiCall.appendRow _ _ => true
  | _ => false

/-- The worksheet titles the spec derives from the section names, in
section order: slash-to-underscore substitution on each name, then
deduplication against the titles already generated (`acc`). -/
def generatedTitlesFrom (acc : List String) : List String → List String
  | [] => []
  | n :: rest =>
      let t := get_valid_sheet_name (slashToUnderscore n) acc
      t :: generatedTitlesFrom (acc ++ [t]) rest

/-- `generatedTitlesFrom` starting from no titles. -/
def generatedTitles (names : List String) : List String :=
  generatedTitlesFrom [] names

/-- The section-name-to-title entries produced by `_create_worksheets`,
in section order, starting from already-generated titles `acc`. -/
def titleEntries (acc : List String) : List Sect → List (String × String)
  | [] => []
  | s :: rest =>
      let t := get_valid_sheet_name (slashToUnderscore s.name) acc
      (s.name, t) :: titleEntries (acc ++ [t]) rest

/-- The section-name-to-worksheet entries produced by
`_create_worksheets`, in section order. -/
def createdEntries (acc : List String) : List Sect → List (String × Worksheet)
  | [] => []
  | s :: rest =>
      let t := get_valid_sheet_name (slashToUnderscore s.name) acc
      (s.name,
        { title := t, rowCount := 1,
          colCount := s.elements.length + EXTRA_FIELDS.length }) ::
        createdEntries (acc ++ [t]) rest

/-- The batched row-write events of a trace: for each `update_cells`
call, the target worksheet title and the written cells. -/
def updateEventsOf (tr : List ApiCall) :
    List (String × List (Nat × Nat × Value)) :=
  tr.filterMap (fun e =>
    match e with
    | ApiCall.updateCells w cells => some (w, cells)
    | _ => none)

/-- The rows of cell values written by the batched row writes of a
trace. -/
def writtenCellRows (tr : List ApiCall) : List (List Value) :=
  tr.filterMap (fun e =>
    match e with
    | ApiCall.updateCells _ cells => some (cells.map (fun c => c.2.2))
    | _ => none)

/-- The row writes the flattened export is expected to perform: the k-th
row of `rows` (counting `index` as the first) is written to the worksheet
named `title` at row index `index + k`, column `i + 1` per position
`i`. -/
def expectedFlattenedWrites (title : String) :
    Nat → List (List String) → List (String × List (Nat × Nat × Value))
  | _, [] => []
  | index, r :: rest =>
      (title,
        (r.map Value.vstr).enum.map (fun p => (index, p.1 + 1, p.2))) ::
        expectedFlattenedWrites title (index + 1) rest

/-- The values of the data row `write_row` appends for a record `data`
and a section `s`: the parent-fixed record looked up at the section's
element xpaths in element order, then at the extra fields. -/
def rowValues (worksheet_titles : List (String × String)) (data : Dict)
    (s : Sect) : List Value :=
  (s.elements.map Element.xpath ++ EXTRA_FIELDS).map
    (fun f => dget (parentFixed worksheet_titles data) f)

/-- A trivial joined-export parameter for concrete runs: the record
itself becomes the survey section's row, the indices state is
unchanged. -/
def joined0 : JoinedFn := fun indices _ d => ([("s", SectionData.row d)], indices)

/-- A trivial pre-processing parameter for concrete runs: the identity on
the row. -/
def pre0 : PreFn := fun r _ => r

/-- A concrete configuration for witnesses: tabular export, no XLSForm
insertion. -/
def cfg0 : Config :=
  { spreadsheet_title := "t", flatten_repeated_fields := false,
    export_xlsform := false }

/-- A concrete empty export input for witnesses. -/
def inp0 : ExportInput :=
  { sections := [], survey_name := "s", data := [], csvRows := [],
    xlsform := none }

/-- A concrete section named `survey` with one element, for the C1
counterexample. -/
def sectSurvey : Sect :=
  { name := "survey", elements := [{ xpath := "x", title := "X" }] }

/-- A concrete configuration for the C1 counterexample: tabular export
with XLSForm insertion enabled. -/
def cfgC1 : Config :=
  { spreadsheet_title := "T", flatten_repeated_fields := false,
    export_xlsform := true }

/-- A concrete input for the C1 counterexample: one section named
`survey` and a stored XLSForm whose first sheet is also named
`survey`. -/
def inpC1 : ExportInput :=
  { sections := [sectSurvey], survey_name := "survey", data := [],
    csvRows := [],
    xlsform := some [XlsSheet.mk "survey" 1 1 [[Value.vstr "q"]]] }

/-- A concrete configuration for the C5 counterexample: flattened
export. -/
def cfgC5 : Config :=
  { spreadsheet_title := "T", flatten_repeated_fields := true,
    export_xlsform := false }

/-- A concrete input for the C5 counterexample: two sections but a
flattened export with one CSV row. -/
def inpC5 : ExportInput :=
  { sections := [{ name := "a", elements := [] },
      { name := "b", elements := [] }],
    survey_name := "a", data := [], csvRows := [["v"]], xlsform := none }

/-- A concrete non-degenerate export input for witnesses: one section
with one element and one empty record. -/
def inpW : ExportInput :=
  { sections := [{ name := "g", elements := [{ xpath := "x", title := "X" }] }],
    survey_name := "g", data := [[]], csvRows := [], xlsform := none }

/-- A concrete configuration for the C9 witness: flattened export with
XLSForm insertion enabled. -/
def cfgC9 : Config :=
  { spreadsheet_title := "t", flatten_repeated_fields := true,
    export_xlsform := true }

/-! ### Dictionary lemmas -/

theorem find?_dset_self {α : Type} (d : List (String × α)) (k : String)
    (v : α) :
    (dset d k v).find? (fun p => decide (p.1 = k)) = some (k, v) := by
  induction d with
  | nil => simp [dset]
  | cons p rest ih =>
    by_cases hpk : p.1 = k
    · have hfind : (p :: rest).find? (fun q => decide (q.1 = k)) = some p :=
        List.find?_cons_of_pos _ (by simp [hpk])
      have hd : dset (p :: rest) k v
          = (k, v) :: rest.map (fun q => if q.1 = k then (k, v) else q) := by
        simp [dset, hfind, hpk]
      rw [hd]
      exact List.find?_cons_of_pos _ (by simp)
    · have hfind : (p :: rest).find? (fun q => decide (q.1 = k))
          = rest.find? (fun q => decide (q.1 = k)) :=
        List.find?_cons_of_neg _ (by simp [hpk])
      by_cases hg : (rest.find? (fun q => decide (q.1 = k))).isSome
      · have hd : dset (p :: rest) k v
            = (if p.1 = k then (k, v) else p) ::
              rest.map (fun q => if q.1 = k then (k, v) else q) := by
          simp [dset, hfind, hg]
        have hd2 : dset rest k v
            = rest.map (fun q => if q.1 = k then (k, v) else q) := by
          simp [dset, hg]
        rw [hd, if_neg hpk, List.find?_cons_of_neg _ (by simp [hpk]), ← hd2]
        exact ih
      · have hd : dset (p :: rest) k v = p :: (rest ++ [(k, v)]) := by
          simp [dset, hfind, hg]
        have hd2 : dset rest k v = rest ++ [(k, v)] := by
          simp [dset, hg]
        rw [hd, List.find?_cons_of_neg _ (by simp [hpk]), ← hd2]
        exact ih

theorem dget_dset_self (d : Dict) (k : String) (v : Value) :
    dget (dset d k v) k = v := by
  simp [dget, find?_dset_self]

theorem dset_of_not_mem_keys {α : Type} (d : List (String × α)) (k : String)
    (v : α) (h : k ∉ d.map Prod.fst) : dset d k v = d ++ [(k, v)] := by
  have hfind : d.find? (fun p => decide (p.1 = k)) = none := by
    rw [List.find?_eq_none]
    intro p hp
    simp only [decide_eq_true_eq]
    intro hpk
    exact h (hpk ▸ List.mem_map_of_mem Prod.fst hp)
  simp [dset, hfind]

theorem entry_eq_of_keys_nodup {α : Type} (d : List (String × α))
    (hn : (d.map Prod.fst).Nodup) (p q : String × α) (hp : p ∈ d) (hq : q ∈ d)
    (hk : p.1 = q.1) : p = q := by
  induction d with
  | nil => cases hp
  | cons a rest ih =>
    simp only [List.map_cons, List.nodup_cons] at hn
    rcases List.mem_cons.1 hp with hp1 | hp1 <;>
      rcases List.mem_cons.1 hq with hq1 | hq1
    · rw [hp1, hq1]
    · exfalso
      apply hn.1
      rw [← hp1, hk]
      exact List.mem_map_of_mem Prod.fst hq1
    · exfalso
      apply hn.1
      rw [← hq1, ← hk]
      exact List.mem_map_of_mem Prod.fst hp1
    · exact ih hn.2 hp1 hq1

theorem find?_of_mem_keys_nodup {α : Type} (d : List (String × α))
    (k : String) (v : α) (hn : (d.map Prod.fst).Nodup) (hm : (k, v) ∈ d) :
    d.find? (fun p => decide (p.1 = k)) = some (k, v) := by
  induction d with
  | nil => cases hm
  | cons a rest ih =>
    simp only [List.map_cons, List.nodup_cons] at hn
    rcases List.mem_cons.1 hm with hm1 | hm1
    · rw [← hm1]
      exact List.find?_cons_of_pos _ (by simp)
    · by_cases hak : a.1 = k
      · exfalso
        exact hn.1 (hak ▸ List.mem_map_of_mem Prod.fst hm1)
      · rw [List.find?_cons_of_neg _ (by simp [hak])]
        exact ih hn.2 hm1

theorem tget_of_mem_keys_nodup {α : Type} (d : List (String × α))
    (k : String) (v : α) (hn : (d.map Prod.fst).Nodup) (hm : (k, v) ∈ d) :
    tget d k = some v := by
  simp [tget, find?_of_mem_keys_nodup d k v hn hm]

theorem dset_mem_noop {α : Type} (d : List (String × α)) (k : String) (v : α)
    (hn : (d.map Prod.fst).Nodup) (hm : (k, v) ∈ d) : dset d k v = d := by
  have hfind := find?_of_mem_keys_nodup d k v hn hm
  have : dset d k v = d.map (fun q => if q.1 = k then (k, v) else q) := by
    simp [dset, hfind]
  rw [this]
  have : ∀ q ∈ d, (if q.1 = k then (k, v) else q) = q := by
    intro q hq
    by_cases hqk : q.1 = k
    · rw [if_pos hqk]
      exact entry_eq_of_keys_nodup d hn (k, v) q hm hq (by rw [hqk])
    · rw [if_neg hqk]
  rw [List.map_congr_left this]
  simp

/-! ### Freshness of generated sheet names -/

theorem get_valid_sheet_name_not_mem (name : String)
    (existing : List String) :
    get_valid_sheet_name name existing ∉ existing := by
  unfold get_valid_sheet_name
  cases hf : (((List.range (existing.length + 1)).map
      (fun k => name ++ String.replicate k '_')).find?
    (fun c => decide (c ∉ existing))) with
  | none =>
    exfalso
    rw [List.find?_eq_none] at hf
    have hsub : ((List.range (existing.length + 1)).map
        (fun k => name ++ String.replicate k '_')) ⊆ existing := by
      intro x hx
      have := hf x hx
      simpa using this
    have hinj : Function.Injective
        (fun k => name ++ String.replicate k '_') := by
      intro a b hab
      have hlen := congrArg String.length hab
      simpa using hlen
    have hnodup := List.Nodup.map hinj (List.nodup_range (existing.length + 1))
    have hle := (List.subperm_of_subset hnodup hsub).length_le
    simp at hle
  | some c =>
    have hc := List.find?_some hf
    simp only [decide_eq_true_eq] at hc
    simpa using hc

theorem generatedTitlesFrom_nodup (names : List String) :
    ∀ acc : List String, acc.Nodup →
      (acc ++ generatedTitlesFrom acc names).Nodup := by
  induction names with
  | nil =>
    intro acc h
    simpa [generatedTitlesFrom] using h
  | cons n rest ih =>
    intro acc h
    have hfresh := get_valid_sheet_name_not_mem (slashToUnderscore n) acc
    have h2 : (acc ++ [get_valid_sheet_name (slashToUnderscore n) acc]).Nodup := by
      rw [List.nodup_append]
      refine ⟨h, List.nodup_singleton _, ?_⟩
      intro x hx hx1
      rw [List.mem_singleton] at hx1
      exact hfresh (hx1 ▸ hx)
    have h3 := ih (acc ++ [get_valid_sheet_name (slashToUnderscore n) acc]) h2
    simpa [generatedTitlesFrom, List.append_assoc] using h3

theorem generatedTitles_nodup (names : List String) :
    (generatedTitles names).Nodup := by
  simpa [generatedTitles] using generatedTitlesFrom_nodup names [] List.nodup_nil

/-! ### Structure of `_create_worksheets` -/

theorem titleEntries_map_fst (ss : List Sect) :
    ∀ acc, (titleEntries acc ss).map Prod.fst = ss.map Sect.name := by
  induction ss with
  | nil => intro acc; simp [titleEntries]
  | cons s rest ih => intro acc; simp [titleEntries, ih]

theorem titleEntries_map_snd (ss : List Sect) :
    ∀ acc, (titleEntries acc ss).map Prod.snd
      = generatedTitlesFrom acc (ss.map Sect.name) := by
  induction ss with
  | nil => intro acc; simp [titleEntries, generatedTitlesFrom]
  | cons s rest ih =>
    intro acc
    simp [titleEntries, generatedTitlesFrom, ih]

theorem createdEntries_map_fst (ss : List Sect) :
    ∀ acc, (createdEntries acc ss).map Prod.fst = ss.map Sect.name := by
  induction ss with
  | nil => intro acc; simp [createdEntries]
  | cons s rest ih => intro acc; simp [createdEntries, ih]

theorem createdEntries_titles (ss : List Sect) :
    ∀ acc, (createdEntries acc ss).map (fun p => p.2.title)
      = generatedTitlesFrom acc (ss.map Sect.name) := by
  induction ss with
  | nil => intro acc; simp [createdEntries, generatedTitlesFrom]
  | cons s rest ih =>
    intro acc
    simp [createdEntries, generatedTitlesFrom, ih]

theorem createdEntries_mem (ss : List Sect) (s : Sect) (hs : s ∈ ss) :
    ∀ acc, ∃ t, (s.name,
      { title := t, rowCount := 1,
        colCount := s.elements.length + EXTRA_FIELDS.length : Worksheet })
      ∈ createdEntries acc ss := by
  induction ss with
  | nil => cases hs
  | cons a rest ih =>
    intro acc
    rcases List.mem_cons.1 hs with h1 | h1
    · exact ⟨_, by rw [h1]; exact List.mem_cons_self _ _⟩
    · obtain ⟨t, ht⟩ := ih h1
        (acc ++ [get_valid_sheet_name (slashToUnderscore a.name) acc])
      exact ⟨t, List.mem_cons_of_mem _ ht⟩

theorem create_worksheets_spec (ss : List Sect) :
    ∀ st : BuilderState,
      (ss.map Sect.name).Nodup →
      (∀ n ∈ ss.map Sect.name, n ∉ st.worksheet_titles.map Prod.fst) →
      (∀ n ∈ ss.map Sect.name, n ∉ st.worksheets.map Prod.fst) →
      (_create_worksheets st ss).1.worksheet_titles
          = st.worksheet_titles
            ++ titleEntries (st.worksheet_titles.map Prod.snd) ss
        ∧ (_create_worksheets st ss).1.worksheets
          = st.worksheets ++ createdEntries (st.worksheet_titles.map Prod.snd) ss
        ∧ (_create_worksheets st ss).2
          = (createdEntries (st.worksheet_titles.map Prod.snd) ss).map
              (fun p =>
                ApiCall.addWorksheet p.2.title p.2.rowCount p.2.colCount) := by
  induction ss with
  | nil =>
    intro st _ _ _
    exact ⟨by simp [_create_worksheets, titleEntries],
      by simp [_create_worksheets, createdEntries],
      by simp [_create_worksheets, createdEntries]⟩
  | cons s rest ih =>
    intro st hnodup h1 h2
    have hs1 : s.name ∉ st.worksheet_titles.map Prod.fst := h1 s.name (by simp)
    have hs2 : s.name ∉ st.worksheets.map Prod.fst := h2 s.name (by simp)
    simp only [List.map_cons, List.nodup_cons] at hnodup
    set t := get_valid_sheet_name (slashToUnderscore s.name)
      (st.worksheet_titles.map Prod.snd) with ht
    set w : Worksheet :=
      { title := t, rowCount := 1,
        colCount := s.elements.length + EXTRA_FIELDS.length } with hw
    set st2 : BuilderState :=
      { worksheet_titles := dset st.worksheet_titles s.name t
        worksheets := dset st.worksheets s.name w } with hst2
    have e1 : st2.worksheet_titles = st.worksheet_titles ++ [(s.name, t)] :=
      dset_of_not_mem_keys _ _ _ hs1
    have e2 : st2.worksheets = st.worksheets ++ [(s.name, w)] :=
      dset_of_not_mem_keys _ _ _ hs2
    have hrest1 : ∀ n ∈ rest.map Sect.name,
        n ∉ st2.worksheet_titles.map Prod.fst := by
      intro n hn
      rw [e1]
      simp only [List.map_append, List.mem_append, List.map_cons,
        List.map_nil, List.mem_singleton, not_or]
      refine ⟨h1 n (by simp [hn]), ?_⟩
      intro hcontra
      exact hnodup.1 (hcontra ▸ hn)
    have hrest2 : ∀ n ∈ rest.map Sect.name,
        n ∉ st2.worksheets.map Prod.fst := by
      intro n hn
      rw [e2]
      simp only [List.map_append, List.mem_append, List.map_cons,
        List.map_nil, List.mem_singleton, not_or]
      refine ⟨h2 n (by simp [hn]), ?_⟩
      intro hcontra
      exact hnodup.1 (hcontra ▸ hn)
    have hacc : st2.worksheet_titles.map Prod.snd
        = st.worksheet_titles.map Prod.snd ++ [t] := by
      rw [e1]; simp
    obtain ⟨ih1, ih2, ih3⟩ := ih st2 hnodup.2 hrest1 hrest2
    have hunfold : _create_worksheets st (s :: rest)
        = ((_create_worksheets st2 rest).1,
            ApiCall.addWorksheet t 1
              (s.elements.length + EXTRA_FIELDS.length)
              :: (_create_worksheets st2 rest).2) := rfl
    refine ⟨?_, ?_, ?_⟩
    · rw [hunfold]
      show (_create_worksheets st2 rest).1.worksheet_titles = _
      rw [ih1, e1]
      simp [titleEntries, ← ht, List.append_assoc]
    · rw [hunfold]
      show (_create_worksheets st2 rest).1.worksheets = _
      rw [ih2, e2, hacc]
      simp [createdEntries, ← ht, ← hw, List.append_assoc]
    · rw [hunfold]
      show ApiCall.addWorksheet t 1 (s.elements.length + EXTRA_FIELDS.length)
          :: (_create_worksheets st2 rest).2 = _
      rw [ih3, hacc]
      simp [createdEntries, ← ht, ← hw]

/-! ### Structure of `_insert_headers` -/

theorem headerRow_length (s : Sect) :
    (headerRow s).length = s.elements.length + EXTRA_FIELDS.length := by
  simp [headerRow]

theorem update_row_no_resize (ws : Worksheet) (index : Nat)
    (values : List Value) (h : ¬ ws.colCount < values.length) :
    update_row ws index values
      = (ws, [ApiCall.updateCells ws.title
          (values.enum.map (fun p => (index, p.1 + 1, p.2)))]) := by
  simp [update_row, h]

theorem insert_headers_spec (ss : List Sect) :
    ∀ wsd : List (String × Worksheet),
      (wsd.map Prod.fst).Nodup →
      (∀ s ∈ ss, ∃ ws : Worksheet, (s.name, ws) ∈ wsd ∧
        (headerRow s).length ≤ ws.colCount) →
      _insert_headers wsd ss
        = (wsd, ss.map (fun s =>
            ApiCall.updateCells (wget wsd s.name).title
              ((headerRow s).enum.map (fun p => (1, p.1 + 1, p.2))))) := by
  induction ss with
  | nil =>
    intro wsd _ _
    simp [_insert_headers]
  | cons s rest ih =>
    intro wsd hk hws
    obtain ⟨ws, hmem, hcol⟩ := hws s (by simp)
    have hfind := find?_of_mem_keys_nodup wsd s.name ws hk hmem
    have hwget : wget wsd s.name = ws := by simp [wget, tget, hfind]
    have hupd := update_row_no_resize ws 1 (headerRow s) (by omega)
    have hnoop : dset wsd s.name ws = wsd := dset_mem_noop wsd s.name ws hk hmem
    have key : _insert_headers wsd (s :: rest)
        = ((_insert_headers
              (dset wsd s.name
                (update_row (wget wsd s.name) 1 (headerRow s)).1) rest).1,
            (update_row (wget wsd s.name) 1 (headerRow s)).2
              ++ (_insert_headers
                (dset wsd s.name
                  (update_row (wget wsd s.name) 1 (headerRow s)).1) rest).2) :=
      rfl
    rw [key, hwget, hupd]
    simp only
    rw [hnoop, ih wsd hk (fun s2 hs2 => hws s2 (List.mem_cons_of_mem _ hs2))]
    simp [hwget]

/-! ### Structure of `_insert_data` -/

theorem write_row_trace (data : Dict) (ws : Worksheet) (fields : List String)
    (wt : List (String × String)) :
    (write_row data ws fields wt).2.2
      = [ApiCall.appendRow ws.title
          (fields.map (fun f => dget (parentFixed wt data) f))] := rfl

theorem writeRowsLoop_events (fields : List String)
    (wt : List (String × String)) (pre : PreFn) (s : Sect) (rs : List Dict) :
    ∀ ws : Worksheet, ∀ e ∈ (writeRowsLoop fields wt pre s ws rs).2,
      ∃ r : Dict, ∃ w : String,
        e = ApiCall.appendRow w
          (fields.map (fun f => dget (parentFixed wt (pre r s)) f)) := by
  induction rs with
  | nil =>
    intro ws e he
    simp [writeRowsLoop] at he
  | cons r rest ih =>
    intro ws e he
    have key : (writeRowsLoop fields wt pre s ws (r :: rest)).2
        = (write_row (pre r s) ws fields wt).2.2
          ++ (writeRowsLoop fields wt pre s
              (write_row (pre r s) ws fields wt).2.1 rest).2 := rfl
    rw [key, write_row_trace] at he
    rcases List.mem_append.1 he with h1 | h1
    · rw [List.mem_singleton] at h1
      exact ⟨r, ws.title, h1⟩
    · exact ih _ e h1

theorem dataSectionLoop_events (wt : List (String × String)) (pre : PreFn)
    (output : Output) (ss : List Sect) :
    ∀ wsd : List (String × Worksheet),
      ∀ e ∈ (dataSectionLoop wt pre output wsd ss).2,
        ∃ s ∈ ss, ∃ r : Dict, ∃ w : String,
          e = ApiCall.appendRow w
            ((s.elements.map Element.xpath ++ EXTRA_FIELDS).map
              (fun f => dget (parentFixed wt (pre r s)) f)) := by
  induction ss with
  | nil =>
    intro wsd e he
    simp [dataSectionLoop] at he
  | cons s rest ih =>
    intro wsd e he
    cases hog : oget output s.name with
    | none =>
      have key : (dataSectionLoop wt pre output wsd (s :: rest)).2
          = (dataSectionLoop wt pre output wsd rest).2 := by
        simp only [dataSectionLoop, hog]
      rw [key] at he
      obtain ⟨s2, hs2, hrest⟩ := ih wsd e he
      exact ⟨s2, List.mem_cons_of_mem _ hs2, hrest⟩
    | some sd =>
      cases sd with
      | row r =>
        have key : (dataSectionLoop wt pre output wsd (s :: rest)).2
            = (write_row (pre r s) (wget wsd s.name)
                (s.elements.map Element.xpath ++ EXTRA_FIELDS) wt).2.2
              ++ (dataSectionLoop wt pre output
                  (dset wsd s.name
                    (write_row (pre r s) (wget wsd s.name)
                      (s.elements.map Element.xpath ++ EXTRA_FIELDS) wt).2.1)
                  rest).2 := by
          simp only [dataSectionLoop, hog]
        rw [key, write_row_trace] at he
        rcases List.mem_append.1 he with h1 | h1
        · rw [List.mem_singleton] at h1
          exact ⟨s, by simp, r, (wget wsd s.name).title, h1⟩
        · obtain ⟨s2, hs2, hrest⟩ := ih _ e h1
          exact ⟨s2, List.mem_cons_of_mem _ hs2, hrest⟩
      | rows rs =>
        have key : (dataSectionLoop wt pre output wsd (s :: rest)).2
            = (writeRowsLoop (s.elements.map Element.xpath ++ EXTRA_FIELDS)
                wt pre s (wget wsd s.name) rs).2
              ++ (dataSectionLoop wt pre output
                  (dset wsd s.name
                    (writeRowsLoop
                      (s.elements.map Element.xpath ++ EXTRA_FIELDS)
                      wt pre s (wget wsd s.name) rs).1)
                  rest).2 := by
          simp only [dataSectionLoop, hog]
        rw [key] at he
        rcases List.mem_append.1 he with h1 | h1
        · obtain ⟨r, w, hrw⟩ := writeRowsLoop_events _ wt pre s rs _ e h1
          exact ⟨s, by simp, r, w, hrw⟩
        · obtain ⟨s2, hs2, hrest⟩ := ih _ e h1
          exact ⟨s2, List.mem_cons_of_mem _ hs2, hrest⟩

theorem dataRecordLoop_events (joined : JoinedFn) (pre : PreFn)
    (wt : List (String × String)) (sections : List Sect)
    (survey_name : String) (data : List Dict) :
    ∀ (wsd : List (String × Worksheet)) (indices : List (String × Nat))
      (index : Nat),
      ∀ e ∈ (dataRecordLoop joined pre wt sections survey_name wsd indices
          index data).2,
        ∃ s ∈ sections, ∃ r : Dict, ∃ w : String,
          e = ApiCall.appendRow w
            ((s.elements.map Element.xpath ++ EXTRA_FIELDS).map
              (fun f => dget (parentFixed wt (pre r s)) f)) := by
  induction data with
  | nil =>
    intro wsd indices index e he
    simp [dataRecordLoop] at he
  | cons d rest ih =>
    intro wsd indices index e he
    have key : (dataRecordLoop joined pre wt sections survey_name wsd indices
          index (d :: rest)).2
        = (dataSectionLoop wt pre
            (attachMeta (joined indices index d).1 survey_name
              (Int.ofNat index)) wsd sections).2
          ++ (dataRecordLoop joined pre wt sections survey_name
              (dataSectionLoop wt pre
                (attachMeta (joined indices index d).1 survey_name
                  (Int.ofNat index)) wsd sections).1
              (joined indices index d).2 (index + 1) rest).2 := rfl
    rw [key] at he
    rcases List.mem_append.1 he with h1 | h1
    · exact dataSectionLoop_events wt pre _ sections wsd e h1
    · exact ih _ _ _ e h1

/-! ### Structure of `export_flattened` -/

theorem updateEventsOf_append (a b : List ApiCall) :
    updateEventsOf (a ++ b) = updateEventsOf a ++ updateEventsOf b :=
  List.filterMap_append a b _

theorem update_row_title (ws : Worksheet) (index : Nat)
    (values : List Value) :
    (update_row ws index values).1.title = ws.title := by
  by_cases h : ws.colCount < values.length <;> simp [update_row, h]

theorem update_row_updateEvents (ws : Worksheet) (index : Nat)
    (values : List Value) :
    updateEventsOf (update_row ws index values).2
      = [(ws.title, values.enum.map (fun p => (index, p.1 + 1, p.2)))] := by
  by_cases h : ws.colCount < values.length <;>
    simp [update_row, h, updateEventsOf]

theorem flattenedLoop_updateEvents (rows : List (List String)) :
    ∀ (ws : Worksheet) (index : Nat),
      updateEventsOf (flattenedLoop ws index rows).2
        = expectedFlattenedWrites ws.title index rows := by
  induction rows with
  | nil =>
    intro ws index
    simp [flattenedLoop, updateEventsOf, expectedFlattenedWrites]
  | cons r rest ih =>
    intro ws index
    have key : (flattenedLoop ws index (r :: rest)).2
        = (update_row ws index (r.map Value.vstr)).2
          ++ (flattenedLoop (update_row ws index (r.map Value.vstr)).1
              (index + 1) rest).2 := rfl
    rw [key, updateEventsOf_append, update_row_updateEvents, ih _ _,
      update_row_title]
    rfl

theorem export_flattened_updateEvents (csvRows : List (List String)) :
    updateEventsOf (export_flattened csvRows)
      = expectedFlattenedWrites FLATTENED_SHEET_TITLE 1
          (csvRows.map naFilterRow) := by
  by_cases h : (csvRows.map naFilterRow).length = 0
  · rw [List.length_eq_zero] at h
    have h0 : csvRows = [] := by
      cases csvRows with
      | nil => rfl
      | cons a b => simp at h
    rw [h0]
    simp [export_flattened, updateEventsOf, expectedFlattenedWrites,
      naFilterRow]
  · have key : export_flattened csvRows
        = ApiCall.addWorksheet FLATTENED_SHEET_TITLE
            (csvRows.map naFilterRow).length
            ((csvRows.map naFilterRow).getD 0 []).length
          :: (flattenedLoop
              { title := FLATTENED_SHEET_TITLE,
                rowCount := (csvRows.map naFilterRow).length,
                colCount := ((csvRows.map naFilterRow).getD 0 []).length }
              1 (csvRows.map naFilterRow)).2 := by
      have hne : ¬ csvRows = [] := by
        intro h0
        rw [h0] at h
        simp at h
      simp [export_flattened, h, hne]
    rw [key]
    show updateEventsOf (ApiCall.addWorksheet _ _ _ :: _) = _
    have : ∀ (x : ApiCall) (tr : List ApiCall), isRowWrite x = false →
        x = ApiCall.addWorksheet FLATTENED_SHEET_TITLE
          (csvRows.map naFilterRow).length
          ((csvRows.map naFilterRow).getD 0 []).length →
        True := fun _ _ _ _ => trivial
    rw [show updateEventsOf (ApiCall.addWorksheet FLATTENED_SHEET_TITLE
        (csvRows.map naFilterRow).length
        ((csvRows.map naFilterRow).getD 0 []).length
        :: (flattenedLoop
            { title := FLATTENED_SHEET_TITLE,
              rowCount := (csvRows.map naFilterRow).length,
              colCount := ((csvRows.map naFilterRow).getD 0 []).length }
            1 (csvRows.map naFilterRow)).2)
      = updateEventsOf (flattenedLoop
          { title := FLATTENED_SHEET_TITLE,
            rowCount := (csvRows.map naFilterRow).length,
            colCount := ((csvRows.map naFilterRow).getD 0 []).length }
          1 (csvRows.map naFilterRow)).2 from rfl]
    rw [flattenedLoop_updateEvents]

theorem writtenCellRows_eq (tr : List ApiCall) :
    writtenCellRows tr
      = (updateEventsOf tr).map (fun q => q.2.map (fun c => c.2.2)) := by
  induction tr with
  | nil => simp [writtenCellRows, updateEventsOf]
  | cons e rest ih =>
    cases e <;> simp [writtenCellRows, updateEventsOf] <;>
      simpa [writtenCellRows, updateEventsOf] using ih

theorem expectedFlattenedWrites_values (title : String)
    (rows : List (List String)) :
    ∀ index : Nat,
      (expectedFlattenedWrites title index rows).map
          (fun q => q.2.map (fun c => c.2.2))
        = rows.map (fun r => r.map Value.vstr) := by
  induction rows with
  | nil => intro index; simp [expectedFlattenedWrites]
  | cons r rest ih =>
    intro index
    simp only [expectedFlattenedWrites, List.map_cons, List.map_map]
    refine congrArg₂ _ ?_ (ih (index + 1))
    rw [show ((fun c => c.2.2) ∘ fun p => ((index, p.1 + 1, p.2)
        : Nat × Nat × Value)) = Prod.snd from rfl]
    rw [List.enum_eq_enumFrom, List.enumFrom_map_snd]

/-! ### Kinds of the events of each phase -/

theorem update_row_kinds (ws : Worksheet) (index : Nat)
    (values : List Value) :
    ∀ e ∈ (update_row ws index values).2, isRowWrite e = true := by
  intro e he
  by_cases h : ws.colCount < values.length <;>
    simp [update_row, h] at he
  · rcases he with h1 | h1 <;> rw [h1] <;> rfl
  · rw [he]; rfl

theorem create_worksheets_kinds (ss : List Sect) :
    ∀ st : BuilderState, ∀ e ∈ (_create_worksheets st ss).2,
      isAddWorksheet e = true := by
  induction ss with
  | nil =>
    intro st e he
    simp [_create_worksheets] at he
  | cons s rest ih =>
    intro st e he
    have key : (_create_worksheets st (s :: rest)).2
        = ApiCall.addWorksheet
            (get_valid_sheet_name (slashToUnderscore s.name)
              (st.worksheet_titles.map Prod.snd)) 1
            (s.elements.length + EXTRA_FIELDS.length)
          :: (_create_worksheets
              { worksheet_titles := dset st.worksheet_titles s.name
                  (get_valid_sheet_name (slashToUnderscore s.name)
                    (st.worksheet_titles.map Prod.snd))
                worksheets := dset st.worksheets s.name
                  { title := get_valid_sheet_name (slashToUnderscore s.name)
                      (st.worksheet_titles.map Prod.snd), rowCount := 1,
                    colCount := s.elements.length + EXTRA_FIELDS.length } }
              rest).2 := rfl
    rw [key] at he
    rcases List.mem_cons.1 he with h1 | h1
    · rw [h1]; rfl
    · exact ih _ e h1

theorem insert_headers_kinds (ss : List Sect) :
    ∀ wsd : List (String × Worksheet), ∀ e ∈ (_insert_headers wsd ss).2,
      isRowWrite e = true := by
  induction ss with
  | nil =>
    intro wsd e he
    simp [_insert_headers] at he
  | cons s rest ih =>
    intro wsd e he
    have key : (_insert_headers wsd (s :: rest)).2
        = (update_row (wget wsd s.name) 1 (headerRow s)).2
          ++ (_insert_headers
              (dset wsd s.name
                (update_row (wget wsd s.name) 1 (headerRow s)).1) rest).2 :=
      rfl
    rw [key] at he
    rcases List.mem_append.1 he with h1 | h1
    · exact update_row_kinds _ _ _ e h1
    · exact ih _ e h1

theorem flattenedLoop_kinds (rows : List (List String)) :
    ∀ (ws : Worksheet) (index : Nat), ∀ e ∈ (flattenedLoop ws index rows).2,
      isRowWrite e = true := by
  induction rows with
  | nil =>
    intro ws index e he
    simp [flattenedLoop] at he
  | cons r rest ih =>
    intro ws index e he
    have key : (flattenedLoop ws index (r :: rest)).2
        = (update_row ws index (r.map Value.vstr)).2
          ++ (flattenedLoop (update_row ws index (r.map Value.vstr)).1
              (index + 1) rest).2 := rfl
    rw [key] at he
    rcases List.mem_append.1 he with h1 | h1
    · exact update_row_kinds _ _ _ e h1
    · exact ih _ _ e h1

theorem export_flattened_kinds (csvRows : List (List String)) :
    ∀ e ∈ export_flattened csvRows, wsOp e = true := by
  intro e he
  by_cases h : (csvRows.map naFilterRow).length = 0
  · simp [export_flattened, h] at he
  · have key : export_flattened csvRows
        = ApiCall.addWorksheet FLATTENED_SHEET_TITLE
            (csvRows.map naFilterRow).length
            ((csvRows.map naFilterRow).getD 0 []).length
          :: (flattenedLoop
              { title := FLATTENED_SHEET_TITLE,
                rowCount := (csvRows.map naFilterRow).length,
                colCount := ((csvRows.map naFilterRow).getD 0 []).length }
              1 (csvRows.map naFilterRow)).2 := by
      have hne : ¬ csvRows = [] := by
        intro h0
        rw [h0] at h
        simp at h
      simp [export_flattened, h, hne]
    rw [key] at he
    rcases List.mem_cons.1 he with h1 | h1
    · rw [h1]; rfl
    · have := flattenedLoop_kinds (csvRows.map naFilterRow) _ 1 e h1
      cases e <;> simp [isRowWrite] at this ⊢ <;> trivial

theorem xlsRowsLoop_kinds (sh : XlsSheet) (rs : List Nat) :
    ∀ ws : Worksheet, ∀ e ∈ (xlsRowsLoop sh ws rs).2, isRowWrite e = true := by
  induction rs with
  | nil =>
    intro ws e he
    simp [xlsRowsLoop] at he
  | cons r rest ih =>
    intro ws e he
    have key : (xlsRowsLoop sh ws (r :: rest)).2
        = (update_row ws (r + 1)
            ((List.range sh.ncols).map (fun c => cell_value sh r c))).2
          ++ (xlsRowsLoop sh
              (update_row ws (r + 1)
                ((List.range sh.ncols).map (fun c => cell_value sh r c))).1
              rest).2 := rfl
    rw [key] at he
    rcases List.mem_append.1 he with h1 | h1
    · exact update_row_kinds _ _ _ e h1
    · exact ih _ e h1

theorem xlsSheetLoop_kinds (wb : List XlsSheet) :
    ∀ e ∈ xlsSheetLoop wb, wsOp e = true := by
  induction wb with
  | nil =>
    intro e he
    simp [xlsSheetLoop] at he
  | cons sh rest ih =>
    intro e he
    have key : xlsSheetLoop (sh :: rest)
        = (ApiCall.addWorksheet sh.name sh.nrows sh.ncols
            :: (xlsRowsLoop sh
                { title := sh.name, rowCount := sh.nrows,
                  colCount := sh.ncols } (List.range sh.nrows)).2)
          ++ xlsSheetLoop rest := rfl
    rw [key] at he
    rcases List.mem_append.1 he with h1 | h1
    · rcases List.mem_cons.1 h1 with h2 | h2
      · rw [h2]; rfl
      · have := xlsRowsLoop_kinds sh (List.range sh.nrows) _ e h2
        cases e <;> simp [isRowWrite] at this ⊢ <;> trivial
    · exact ih e h1

theorem insert_xlsform_kinds (wb : Option (List XlsSheet)) :
    ∀ e ∈ _insert_xlsform wb, wsOp e = true := by
  cases wb with
  | none =>
    intro e he
    simp [_insert_xlsform] at he
  | some l =>
    intro e he
    exact xlsSheetLoop_kinds l e he

/-! ### Export-level trace facts -/

theorem insert_data_kinds (joined : JoinedFn) (pre : PreFn)
    (st : BuilderState) (sections : List Sect) (survey_name : String)
    (data : List Dict) :
    ∀ e ∈ (_insert_data joined pre st sections survey_name data).2,
      isAppendRow e = true := by
  intro e he
  obtain ⟨s, _, r, w, hrw⟩ :=
    dataRecordLoop_events joined pre st.worksheet_titles sections survey_name
      data st.worksheets [] 1 e he
  rw [hrw]
  rfl

theorem wsOp_of_isAddWorksheet (e : ApiCall) (h : isAddWorksheet e = true) :
    wsOp e = true := by
  cases e <;> first | rfl | simp [isAddWorksheet] at h

theorem wsOp_of_isRowWrite (e : ApiCall) (h : isRowWrite e = true) :
    wsOp e = true := by
  cases e <;> first | rfl | simp [isRowWrite] at h

theorem wsOp_of_isAppendRow (e : ApiCall) (h : isAppendRow e = true) :
    wsOp e = true := by
  cases e <;> first | rfl | simp [isAppendRow] at h

theorem not_create_of_wsOp (e : ApiCall) (h : wsOp e = true) :
    isCreateSpreadsheet e = false := by
  cases e <;> first | rfl | simp [wsOp] at h

theorem export_tabular_kinds (joined : JoinedFn) (pre : PreFn)
    (st : BuilderState) (sections : List Sect) (survey_name : String)
    (data : List Dict) :
    ∀ e ∈ (export_tabular joined pre st sections survey_name data).2,
      wsOp e = true := by
  intro e he
  have key : (export_tabular joined pre st sections survey_name data).2
      = (_create_worksheets st sections).2
        ++ (_insert_headers (_create_worksheets st sections).1.worksheets
            sections).2
        ++ (_insert_data joined pre
            { (_create_worksheets st sections).1 with
              worksheets := (_insert_headers
                (_create_worksheets st sections).1.worksheets sections).1 }
            sections survey_name data).2 := rfl
  rw [key] at he
  rcases List.mem_append.1 he with h1 | h1
  · rcases List.mem_append.1 h1 with h2 | h2
    · exact wsOp_of_isAddWorksheet e (create_worksheets_kinds sections st e h2)
    · exact wsOp_of_isRowWrite e (insert_headers_kinds sections _ e h2)
  · exact wsOp_of_isAppendRow e (insert_data_kinds _ _ _ _ _ _ e h1)

theorem exportBody_kinds (cfg : Config) (inp : ExportInput)
    (joined : JoinedFn) (pre : PreFn) :
    ∀ e ∈ exportBody cfg inp joined pre, wsOp e = true := by
  intro e he
  by_cases h : cfg.flatten_repeated_fields
  · rw [exportBody, if_pos h] at he
    exact export_flattened_kinds inp.csvRows e he
  · rw [exportBody, if_neg h] at he
    exact export_tabular_kinds joined pre initBuilderState inp.sections
      inp.survey_name inp.data e he

theorem exportXls_kinds (cfg : Config) (inp : ExportInput) :
    ∀ e ∈ exportXls cfg inp, wsOp e = true := by
  intro e he
  by_cases h : cfg.export_xlsform
  · rw [exportXls, if_pos h] at he
    exact insert_xlsform_kinds inp.xlsform e he
  · rw [exportXls, if_neg h] at he
    cases he

theorem exportDel_events (cfg : Config) (inp : ExportInput)
    (joined : JoinedFn) (pre : PreFn) :
    ∀ e ∈ exportDel cfg inp joined pre, e = ApiCall.delWorksheet "Sheet1" := by
  intro e he
  rw [exportDel] at he
  obtain ⟨t, ht, hte⟩ := List.mem_map.1 he
  have := List.of_mem_filter ht
  simp only [decide_eq_true_eq] at this
  rw [← hte, this]

theorem export_filter_create (cfg : Config) (inp : ExportInput)
    (joined : JoinedFn) (pre : PreFn) :
    («export» cfg inp joined pre).filter isCreateSpreadsheet
      = [ApiCall.newSpreadsheet cfg.spreadsheet_title] := by
  rw [«export»]
  rw [List.filter_append, List.filter_append, List.filter_append]
  have h1 : ([ApiCall.login, ApiCall.newSpreadsheet cfg.spreadsheet_title,
      ApiCall.addServiceAccount] : List ApiCall).filter isCreateSpreadsheet
      = [ApiCall.newSpreadsheet cfg.spreadsheet_title] := rfl
  have h2 : (exportBody cfg inp joined pre).filter isCreateSpreadsheet = [] :=
    List.filter_eq_nil_iff.2 (fun e he => by
      rw [not_create_of_wsOp e (exportBody_kinds cfg inp joined pre e he)]
      simp)
  have h3 : (exportXls cfg inp).filter isCreateSpreadsheet = [] :=
    List.filter_eq_nil_iff.2 (fun e he => by
      rw [not_create_of_wsOp e (exportXls_kinds cfg inp e he)]
      simp)
  have h4 : (exportDel cfg inp joined pre).filter isCreateSpreadsheet = [] :=
    List.filter_eq_nil_iff.2 (fun e he => by
      rw [exportDel_events cfg inp joined pre e he]
      simp [isCreateSpreadsheet])
  rw [h1, h2, h3, h4]
  simp

/-! ### Row shape facts -/

theorem rowValues_length (wt : List (String × String)) (data : Dict)
    (s : Sect) :
    (rowValues wt data s).length
      = s.elements.length + EXTRA_FIELDS.length := by
  simp [rowValues]

theorem rowValues_getD (wt : List (String × String)) (data : Dict) (s : Sect)
    (i : Nat) (h : i < s.elements.length + EXTRA_FIELDS.length) :
    (rowValues wt data s).getD i Value.vnone
      = dget (parentFixed wt data)
          ((s.elements.map Element.xpath ++ EXTRA_FIELDS).getD i "") := by
  have hlen : i < (s.elements.map Element.xpath ++ EXTRA_FIELDS).length := by
    simpa using h
  rw [rowValues, List.getD_eq_getElem?_getD, List.getD_eq_getElem?_getD,
    List.getElem?_map, List.getElem?_eq_getElem hlen]
  rfl

/-! ### Further small helpers -/

theorem generatedTitlesFrom_length (ns : List String) :
    ∀ acc, (generatedTitlesFrom acc ns).length = ns.length := by
  induction ns with
  | nil => intro acc; simp [generatedTitlesFrom]
  | cons n rest ih => intro acc; simp [generatedTitlesFrom, ih]

theorem addedTitles_append (a b : List ApiCall) :
    addedTitles (a ++ b) = addedTitles a ++ addedTitles b :=
  List.filterMap_append a b _

theorem addedTitles_eq_nil (tr : List ApiCall)
    (h : ∀ e ∈ tr, isAddWorksheet e = false) : addedTitles tr = [] := by
  induction tr with
  | nil => rfl
  | cons e rest ih =>
    have he := h e (by simp)
    have hrest := ih (fun x hx => h x (List.mem_cons_of_mem _ hx))
    cases e <;> simp [isAddWorksheet] at he <;>
      simpa [addedTitles] using hrest

theorem not_add_of_isRowWrite (e : ApiCall) (h : isRowWrite e = true) :
    isAddWorksheet e = false := by
  cases e <;> first | rfl | simp [isRowWrite] at h

theorem not_add_of_isAppendRow (e : ApiCall) (h : isAppendRow e = true) :
    isAddWorksheet e = false := by
  cases e <;> first | rfl | simp [isAppendRow] at h

theorem expectedFlattenedWrites_getElem (title : String)
    (rows : List (List String)) :
    ∀ index k : Nat,
      (expectedFlattenedWrites title index rows)[k]?
        = (rows[k]?).map (fun r => (title,
            (r.map Value.vstr).enum.map
              (fun p => (index + k, p.1 + 1, p.2)))) := by
  induction rows with
  | nil => intro index k; simp [expectedFlattenedWrites]
  | cons r rest ih =>
    intro index k
    cases k with
    | zero => simp [expectedFlattenedWrites]
    | succ k2 =>
      have harith : index + 1 + k2 = index + (k2 + 1) := by omega
      simp only [expectedFlattenedWrites, List.getElem?_cons_succ,
        ih (index + 1) k2, harith]

/-! ### Claim theorems -/

/-- C3: for every worksheet, row index and list of values, `update_row`
writes `values[i]` into the cell at the given row index and column
`i + 1` for every position `i`, using a single batched update call; it
first widens the worksheet to exactly `values.length` columns when and
only when the worksheet's column count is smaller than `values.length`,
and otherwise leaves the worksheet's dimensions unchanged. -/
theorem update_row_spec (ws : Worksheet) (index : Nat)
    (values : List Value) :
    update_row ws index values
      = ((if ws.colCount < values.length
            then { ws with colCount := values.length } else ws),
          (if ws.colCount < values.length
            then [ApiCall.resize ws.title values.length] else [])
          ++ [ApiCall.updateCells ws.title
            (values.enum.map (fun p => (index, p.1 + 1, p.2)))])
    ∧ (updateEventsOf (update_row ws index values).2).length = 1
    ∧ (update_row ws index values).1.colCount
        = max ws.colCount values.length
    ∧ (update_row ws index values).1.rowCount = ws.rowCount
    ∧ (update_row ws index values).1.title = ws.title
    ∧ ∀ i, i < values.length →
        (values.enum.map (fun p => (index, p.1 + 1, p.2))).getD i
            (0, 0, Value.vnone)
          = (index, i + 1, values.getD i Value.vnone) := by
  refine ⟨?_, ?_, ?_, ?_, update_row_title ws index values, ?_⟩
  · by_cases h : ws.colCount < values.length <;> simp [update_row, h]
  · rw [update_row_updateEvents]
    rfl
  · by_cases h : ws.colCount < values.length <;>
      simp [update_row, h] <;> omega
  · by_cases h : ws.colCount < values.length <;> simp [update_row, h]
  · intro i hi
    have hi2 : i < values.enum.length := by simpa using hi
    rw [List.getD_eq_getElem?_getD, List.getElem?_map,
      List.getElem?_enum, List.getElem?_eq_getElem hi,
      List.getD_eq_getElem?_getD, List.getElem?_eq_getElem hi]
    rfl

/-- Witness for C3: the per-position conjunct applied at a concrete
worksheet, row index and value list, with the position bound
discharged. -/
theorem update_row_spec_witness :
    (([Value.vstr "a", Value.vstr "b"].enum.map
        (fun p => ((2 : Nat), p.1 + 1, p.2))).getD 1 (0, 0, Value.vnone))
      = (2, 2, Value.vstr "b") :=
  (update_row_spec { title := "w", rowCount := 1, colCount := 0 } 2
    [Value.vstr "a", Value.vstr "b"]).2.2.2.2.2 1 (by decide)

/-- C7: the flattened export writes the CSV rows to the `raw` worksheet
in CSV order: the batched row writes are exactly one per CSV row in the
same order, and the k-th CSV row (1-based) is written at worksheet row
index k (the cell rows carry the n/a-filtered values, see C8); when the
CSV is non-empty the first call of `export_flattened` creates the `raw`
worksheet. -/
theorem export_flattened_row_order (csvRows : List (List String)) :
    updateEventsOf (export_flattened csvRows)
        = expectedFlattenedWrites FLATTENED_SHEET_TITLE 1
            (csvRows.map naFilterRow)
    ∧ (∀ k, k < csvRows.length →
        (updateEventsOf (export_flattened csvRows))[k]?
          = some (FLATTENED_SHEET_TITLE,
              ((naFilterRow (csvRows.getD k [])).map Value.vstr).enum.map
                (fun p => (k + 1, p.1 + 1, p.2))))
    ∧ (csvRows ≠ [] →
        (export_flattened csvRows).head?
          = some (ApiCall.addWorksheet FLATTENED_SHEET_TITLE
              (csvRows.map naFilterRow).length
              ((csvRows.map naFilterRow).getD 0 []).length)) := by
  refine ⟨export_flattened_updateEvents csvRows, ?_, ?_⟩
  · intro k hk
    have hk2 : k < (csvRows.map naFilterRow).length := by simpa using hk
    rw [export_flattened_updateEvents, expectedFlattenedWrites_getElem,
      List.getElem?_eq_getElem hk2]
    have harith : 1 + k = k + 1 := by omega
    have hget : (csvRows.map naFilterRow)[k]
        = naFilterRow (csvRows.getD k []) := by
      rw [List.getElem_map]
      congr 1
      rw [List.getD_eq_getElem?_getD, List.getElem?_eq_getElem hk]
      rfl
    rw [harith, hget]
    rfl
  · intro hne
    have h : ¬ (csvRows.map naFilterRow).length = 0 := by
      simpa using fun h0 => hne (by simpa using h0)
    simp [export_flattened, h, hne]

/-- Witness for C7: the positional and head conjuncts at a concrete
one-row CSV, with the bounds discharged. -/
theorem export_flattened_row_order_witness :
    ((updateEventsOf (export_flattened [["a", "n/a"]]))[0]?
        = some (FLATTENED_SHEET_TITLE,
            ((naFilterRow (([["a", "n/a"]] : List (List String)).getD 0 [])).map
                Value.vstr).enum.map
              (fun p => ((0 : Nat) + 1, p.1 + 1, p.2))))
    ∧ (export_flattened [["a", "n/a"]]).head?
        = some (ApiCall.addWorksheet FLATTENED_SHEET_TITLE
            (([["a", "n/a"]] : List (List String)).map naFilterRow).length
            ((([["a", "n/a"]] : List (List String)).map
              naFilterRow).getD 0 []).length) :=
  ⟨(export_flattened_row_order [["a", "n/a"]]).2.1 0 (by decide),
   (export_flattened_row_order [["a", "n/a"]]).2.2 (by decide)⟩

/-- C8: in the flattened export, every cell value that is exactly the
string `n/a` in the CSV read back from disk is written as the empty
string, and every other cell value is written unchanged: the written cell
rows are exactly the CSV rows with `n/a` mapped to the empty string. -/
theorem export_flattened_na_filter (csvRows : List (List String)) :
    writtenCellRows (export_flattened csvRows)
      = csvRows.map (fun row =>
          row.map (fun x => Value.vstr (if x = "n/a" then "" else x))) := by
  rw [writtenCellRows_eq, export_flattened_updateEvents,
    expectedFlattenedWrites_values]
  simp [naFilterRow, List.map_map, Function.comp]

/-- C10 (amended): `write_row` first replaces the row's parent-table
field by the title looked up in the section-name-to-title map, and the
row it appends is built from the replaced row; the written parent-table
value is always either a generated worksheet title from the map or
`None` — never the unmapped original value — and when the original parent
table name has no entry in the map (including when it is absent or not a
string) the written value is `None`.  (It can still coincide with a raw
section name, because a section's generated title can equal its name; see
the counterexample.) -/
theorem write_row_parent_mapped (data : Dict) (ws : Worksheet)
    (fields : List String) (wt : List (String × String)) :
    (write_row data ws fields wt).2.2
        = [ApiCall.appendRow ws.title
            (fields.map (fun f => dget (parentFixed wt data) f))]
    ∧ dget (parentFixed wt data) PARENT_TABLE_NAME
        = mapParentTitle wt (dget data PARENT_TABLE_NAME)
    ∧ ((∃ t ∈ wt.map Prod.snd,
          dget (parentFixed wt data) PARENT_TABLE_NAME = Value.vstr t)
        ∨ dget (parentFixed wt data) PARENT_TABLE_NAME = Value.vnone)
    ∧ (∀ s : String, dget data PARENT_TABLE_NAME = Value.vstr s →
        tget wt s = none →
        dget (parentFixed wt data) PARENT_TABLE_NAME = Value.vnone)
    ∧ (dget data PARENT_TABLE_NAME = Value.vnone →
        dget (parentFixed wt data) PARENT_TABLE_NAME = Value.vnone) := by
  have hb : dget (parentFixed wt data) PARENT_TABLE_NAME
      = mapParentTitle wt (dget data PARENT_TABLE_NAME) :=
    dget_dset_self data PARENT_TABLE_NAME _
  refine ⟨rfl, hb, ?_, ?_, ?_⟩
  · rw [hb]
    cases hv : dget data PARENT_TABLE_NAME with
    | vstr s =>
      cases ht : tget wt s with
      | some t =>
        left
        refine ⟨t, ?_, by simp [mapParentTitle, ht]⟩
        obtain ⟨p, hp, hpt⟩ := Option.map_eq_some'.1 ht
        rw [← hpt]
        exact List.mem_map_of_mem Prod.snd (List.mem_of_find?_eq_some hp)
      | none =>
        right
        simp [mapParentTitle, ht]
    | vnone => right; rfl
    | vint n => right; rfl
  · intro s hs ht
    rw [hb, hs]
    simp [mapParentTitle, ht]
  · intro hv
    rw [hb, hv]
    rfl

/-- Witness for C10 (amended): a parent-table name with no entry in the
map is written as `None`; the hypotheses are discharged at a concrete row
and an empty title map. -/
theorem write_row_parent_mapped_witness :
    dget (parentFixed [] [(PARENT_TABLE_NAME, Value.vstr "z")])
        PARENT_TABLE_NAME = Value.vnone :=
  (write_row_parent_mapped [(PARENT_TABLE_NAME, Value.vstr "z")]
      { title := "w", rowCount := 1, colCount := 3 } EXTRA_FIELDS
      []).2.2.2.1 "z" (by decide) (by decide)

/-- C10 counterexample: the claim says the written parent-table value "is
never a raw section name".  With a single section named `a` (no slash, no
collision) `_create_worksheets` generates the title `a` for it, and a row
whose parent table is `a` gets exactly the value `a` — a raw section
name — written into its parent-table position. -/
theorem write_row_parent_raw_name_counterexample :
    (write_row [(PARENT_TABLE_NAME, Value.vstr "a")]
        { title := "a", rowCount := 1, colCount := 3 } EXTRA_FIELDS
        (_create_worksheets initBuilderState
          [{ name := "a", elements := [] }]).1.worksheet_titles).2.2
      = [ApiCall.appendRow "a"
          [Value.vnone, Value.vnone, Value.vstr "a"]]
    ∧ ([({ name := "a", elements := [] } : Sect)].map Sect.name) = ["a"] := by
  constructor
  · decide
  · decide

/-- C4: every data row written by the tabular export belongs to one of
the sections and one (pre-processed, parent-fixed) record, and is exactly
the ordered list of that record's values looked up at the section's
element xpaths in element order followed by the extra fields (index,
parent index, parent table name); hence its length is the number of the
section's elements plus the number of extra fields, and position `i` of
the row holds the record's value at position `i` of the field list. -/
theorem insert_data_row_shape (joined : JoinedFn) (pre : PreFn)
    (st : BuilderState) (sections : List Sect) (survey_name : String)
    (data : List Dict) :
    ∀ e ∈ (_insert_data joined pre st sections survey_name data).2,
      ∃ s ∈ sections, ∃ r : Dict, ∃ w : String,
        e = ApiCall.appendRow w (rowValues st.worksheet_titles (pre r s) s)
        ∧ (rowValues st.worksheet_titles (pre r s) s).length
            = s.elements.length + EXTRA_FIELDS.length
        ∧ ∀ i, i < s.elements.length + EXTRA_FIELDS.length →
            (rowValues st.worksheet_titles (pre r s) s).getD i Value.vnone
              = dget (parentFixed st.worksheet_titles (pre r s))
                  ((s.elements.map Element.xpath ++ EXTRA_FIELDS).getD
                    i "") := by
  intro e he
  obtain ⟨s, hs, r, w, hrw⟩ :=
    dataRecordLoop_events joined pre st.worksheet_titles sections survey_name
      data st.worksheets [] 1 e he
  exact ⟨s, hs, r, w, hrw, rowValues_length _ _ _,
    fun i hi => rowValues_getD _ _ _ i hi⟩

/-- Witness for C4: the row-shape statement applied to the one data row
of a concrete one-record, one-section tabular export, with the trace
membership discharged. -/
theorem insert_data_row_shape_witness :
    ∃ s ∈ [({ name := "s", elements := [] } : Sect)], ∃ r : Dict,
      ∃ w : String,
        ApiCall.appendRow ""
            [Value.vint 1, Value.vint (-1), Value.vnone]
          = ApiCall.appendRow w
              (rowValues initBuilderState.worksheet_titles (pre0 r s) s)
        ∧ (rowValues initBuilderState.worksheet_titles (pre0 r s) s).length
            = s.elements.length + EXTRA_FIELDS.length
        ∧ ∀ i, i < s.elements.length + EXTRA_FIELDS.length →
            (rowValues initBuilderState.worksheet_titles
                (pre0 r s) s).getD i Value.vnone
              = dget (parentFixed initBuilderState.worksheet_titles
                  (pre0 r s))
                  ((s.elements.map Element.xpath ++ EXTRA_FIELDS).getD
                    i "") :=
  insert_data_row_shape joined0 pre0 initBuilderState
    [{ name := "s", elements := [] }] "s" [[]]
    (ApiCall.appendRow "" [Value.vint 1, Value.vint (-1), Value.vnone])
    (by decide)

theorem addedTitles_entries (l : List (String × Worksheet)) :
    addedTitles (l.map (fun p =>
        ApiCall.addWorksheet p.2.title p.2.rowCount p.2.colCount))
      = l.map (fun p => p.2.title) := by
  induction l with
  | nil => rfl
  | cons x rest ih =>
    show x.2.title :: addedTitles (rest.map _)
      = x.2.title :: rest.map (fun p => p.2.title)
    rw [ih]

/-- C1 (amended): the titles of the worksheets created by
`_create_worksheets` (the per-section worksheets) are pairwise unique,
each derived from its section name by replacing every `/` with `_` and
deduplicating against the titles already generated.  The uniqueness does
NOT extend to the `raw` flattened sheet or the XLSForm sheets copied by
`_insert_xlsform`, which are added under their own titles without
deduplication (see the counterexample). -/
theorem create_worksheets_titles_unique (ss : List Sect)
    (hn : (ss.map Sect.name).Nodup) :
    ((_create_worksheets initBuilderState ss).1.worksheet_titles.map
        Prod.snd) = generatedTitles (ss.map Sect.name)
    ∧ (generatedTitles (ss.map Sect.name)).Nodup
    ∧ addedTitles (_create_worksheets initBuilderState ss).2
        = generatedTitles (ss.map Sect.name) := by
  obtain ⟨h1, h2, h3⟩ := create_worksheets_spec ss initBuilderState hn
    (by simp [initBuilderState]) (by simp [initBuilderState])
  refine ⟨?_, generatedTitles_nodup _, ?_⟩
  · rw [h1, List.map_append, titleEntries_map_snd]
    simp [initBuilderState, generatedTitles]
  · rw [h3, addedTitles_entries, createdEntries_titles]
    simp [initBuilderState, generatedTitles]

/-- Witness for C1 (amended): two sections named `a` and `a/b`; the
distinctness of the section names is discharged concretely. -/
theorem create_worksheets_titles_unique_witness :
    ((_create_worksheets initBuilderState
        [({ name := "a", elements := [] } : Sect),
          { name := "a/b", elements := [] }]).1.worksheet_titles.map
        Prod.snd)
        = generatedTitles
            ([({ name := "a", elements := [] } : Sect),
              { name := "a/b", elements := [] }].map Sect.name)
    ∧ (generatedTitles
        ([({ name := "a", elements := [] } : Sect),
          { name := "a/b", elements := [] }].map Sect.name)).Nodup
    ∧ addedTitles (_create_worksheets initBuilderState
        [({ name := "a", elements := [] } : Sect),
          { name := "a/b", elements := [] }]).2
        = generatedTitles
            ([({ name := "a", elements := [] } : Sect),
              { name := "a/b", elements := [] }].map Sect.name) :=
  create_worksheets_titles_unique
    [{ name := "a", elements := [] }, { name := "a/b", elements := [] }]
    (by decide)

/-- C1 counterexample: the claim extends title uniqueness to the XLSForm
sheets copied by `_insert_xlsform`.  In a tabular export of a form whose
only section is named `survey` and whose stored XLSForm contains a sheet
also named `survey`, the export creates two worksheets both titled
`survey`: the worksheet titles of the export are not pairwise unique. -/
theorem export_duplicate_titles_counterexample :
    addedTitles («export» cfgC1 inpC1 joined0 pre0) = ["survey", "survey"]
    ∧ ¬ (addedTitles («export» cfgC1 inpC1 joined0 pre0)).Nodup := by
  refine ⟨by decide, by decide⟩

/-- C5 (amended): in the tabular export (`flatten_repeated_fields`
unset; XLSForm insertion disabled so that only survey-data worksheets are
created), the worksheets correspond 1:1 to the survey sections: the
created worksheet titles are exactly the generated per-section titles,
their number equals the number of sections, and the builder's worksheet
map has exactly the section names as keys, in section order.  In the
flattened export this 1:1 correspondence fails: all data goes to the
single `raw` worksheet (see the counterexample). -/
theorem tabular_worksheets_one_per_section (cfg : Config) (inp : ExportInput)
    (joined : JoinedFn) (pre : PreFn)
    (hfl : cfg.flatten_repeated_fields = false)
    (hx : cfg.export_xlsform = false)
    (hn : (inp.sections.map Sect.name).Nodup) :
    addedTitles («export» cfg inp joined pre)
        = generatedTitles (inp.sections.map Sect.name)
    ∧ (addedTitles («export» cfg inp joined pre)).length
        = inp.sections.length
    ∧ ((_create_worksheets initBuilderState inp.sections).1.worksheets.map
        Prod.fst) = inp.sections.map Sect.name := by
  obtain ⟨h1, h2, h3⟩ := create_worksheets_spec inp.sections initBuilderState
    hn (by simp [initBuilderState]) (by simp [initBuilderState])
  have hbody : addedTitles (exportBody cfg inp joined pre)
      = generatedTitles (inp.sections.map Sect.name) := by
    rw [exportBody, if_neg (by rw [hfl]; exact Bool.false_ne_true)]
    have key : (export_tabular joined pre initBuilderState inp.sections
          inp.survey_name inp.data).2
        = (_create_worksheets initBuilderState inp.sections).2
          ++ (_insert_headers
              (_create_worksheets initBuilderState inp.sections).1.worksheets
              inp.sections).2
          ++ (_insert_data joined pre
              { (_create_worksheets initBuilderState inp.sections).1 with
                worksheets := (_insert_headers
                  (_create_worksheets initBuilderState
                    inp.sections).1.worksheets inp.sections).1 }
              inp.sections inp.survey_name inp.data).2 := rfl
    rw [key, addedTitles_append, addedTitles_append]
    have hh : addedTitles (_insert_headers
        (_create_worksheets initBuilderState inp.sections).1.worksheets
        inp.sections).2 = [] :=
      addedTitles_eq_nil _ (fun e he =>
        not_add_of_isRowWrite e (insert_headers_kinds _ _ e he))
    have hd : addedTitles (_insert_data joined pre
        { (_create_worksheets initBuilderState inp.sections).1 with
          worksheets := (_insert_headers
            (_create_worksheets initBuilderState
              inp.sections).1.worksheets inp.sections).1 }
        inp.sections inp.survey_name inp.data).2 = [] :=
      addedTitles_eq_nil _ (fun e he =>
        not_add_of_isAppendRow e (insert_data_kinds _ _ _ _ _ _ e he))
    rw [hh, hd, h3, addedTitles_entries, createdEntries_titles]
    simp [initBuilderState, generatedTitles]
  have hxls : addedTitles (exportXls cfg inp) = [] := by
    rw [exportXls, if_neg (by rw [hx]; exact Bool.false_ne_true)]
    rfl
  have hdel : addedTitles (exportDel cfg inp joined pre) = [] :=
    addedTitles_eq_nil _ (fun e he => by
      rw [exportDel_events cfg inp joined pre e he]
      rfl)
  have hall : addedTitles («export» cfg inp joined pre)
      = generatedTitles (inp.sections.map Sect.name) := by
    rw [«export», addedTitles_append, addedTitles_append, addedTitles_append,
      hbody, hxls, hdel]
    simp [addedTitles]
  refine ⟨hall, ?_, ?_⟩
  · rw [hall, generatedTitles, generatedTitlesFrom_length]
    exact List.length_map _ _
  · rw [h2]
    simp only [initBuilderState, List.nil_append]
    exact createdEntries_map_fst inp.sections _

/-- Witness for C5 (amended): a tabular export with one section named
`g`; the flag values and the distinctness of section names are discharged
concretely. -/
theorem tabular_worksheets_one_per_section_witness :
    addedTitles («export» cfg0 inpW joined0 pre0)
        = generatedTitles (inpW.sections.map Sect.name)
    ∧ (addedTitles («export» cfg0 inpW joined0 pre0)).length
        = inpW.sections.length
    ∧ ((_create_worksheets initBuilderState inpW.sections).1.worksheets.map
        Prod.fst) = inpW.sections.map Sect.name :=
  tabular_worksheets_one_per_section cfg0 inpW joined0 pre0 rfl rfl (by decide)

/-- C5 counterexample: the claim quantifies over every export, but in a
flattened export with two sections the only survey-data worksheet is the
single `raw` sheet, so there is not one worksheet per section and the
`raw` worksheet corresponds to no section. -/
theorem flattened_not_one_per_section_counterexample :
    addedTitles («export» cfgC5 inpC5 joined0 pre0) = [FLATTENED_SHEET_TITLE]
    ∧ inpC5.sections.length = 2
    ∧ ¬ (addedTitles («export» cfgC5 inpC5 joined0 pre0)).length
        = inpC5.sections.length := by
  refine ⟨by decide, by decide, by decide⟩

/-- C6: for every section, the tabular export writes at row 1 of that
section's worksheet a header row consisting of the section's element
titles in element order followed by the extra-field names (`headerRow`),
and all header writes happen after the worksheet creations and before
every data-row append of the export. -/
theorem export_tabular_headers (joined : JoinedFn) (pre : PreFn)
    (ss : List Sect) (survey_name : String) (data : List Dict)
    (hn : (ss.map Sect.name).Nodup) :
    ∃ dtr : List ApiCall,
      (export_tabular joined pre initBuilderState ss survey_name data).2
        = (_create_worksheets initBuilderState ss).2
          ++ ss.map (fun s => ApiCall.updateCells
              (wget (_create_worksheets initBuilderState ss).1.worksheets
                s.name).title
              ((headerRow s).enum.map (fun p => (1, p.1 + 1, p.2))))
          ++ dtr
      ∧ (∀ e ∈ dtr, isAppendRow e = true) := by
  obtain ⟨h1, h2, h3⟩ := create_worksheets_spec ss initBuilderState hn
    (by simp [initBuilderState]) (by simp [initBuilderState])
  have hwsd : (_create_worksheets initBuilderState ss).1.worksheets
      = createdEntries [] ss := by
    rw [h2]
    simp [initBuilderState]
  have hkeys : (((_create_worksheets initBuilderState ss).1.worksheets).map
      Prod.fst).Nodup := by
    rw [hwsd, createdEntries_map_fst]
    exact hn
  have hws : ∀ s ∈ ss, ∃ ws : Worksheet,
      (s.name, ws) ∈ (_create_worksheets initBuilderState ss).1.worksheets
      ∧ (headerRow s).length ≤ ws.colCount := by
    intro s hs
    obtain ⟨t, ht⟩ := createdEntries_mem ss s hs []
    refine ⟨_, by rw [hwsd]; exact ht, ?_⟩
    rw [headerRow_length]
  have hh := insert_headers_spec ss
    (_create_worksheets initBuilderState ss).1.worksheets hkeys hws
  refine ⟨(_insert_data joined pre
      { (_create_worksheets initBuilderState ss).1 with
        worksheets := (_insert_headers
          (_create_worksheets initBuilderState ss).1.worksheets ss).1 }
      ss survey_name data).2, ?_, ?_⟩
  · have key : (export_tabular joined pre initBuilderState ss survey_name
        data).2
        = (_create_worksheets initBuilderState ss).2
          ++ (_insert_headers
              (_create_worksheets initBuilderState ss).1.worksheets ss).2
          ++ (_insert_data joined pre
              { (_create_worksheets initBuilderState ss).1 with
                worksheets := (_insert_headers
                  (_create_worksheets initBuilderState ss).1.worksheets
                  ss).1 }
              ss survey_name data).2 := rfl
    rw [key, hh]
  · exact insert_data_kinds joined pre _ ss survey_name data

/-- Witness for C6: the header-trace decomposition at a concrete
one-section export, with the distinctness of section names discharged. -/
theorem export_tabular_headers_witness :
    ∃ dtr : List ApiCall,
      (export_tabular joined0 pre0 initBuilderState inpW.sections
          inpW.survey_name inpW.data).2
        = (_create_worksheets initBuilderState inpW.sections).2
          ++ inpW.sections.map (fun s => ApiCall.updateCells
              (wget (_create_worksheets initBuilderState
                inpW.sections).1.worksheets s.name).title
              ((headerRow s).enum.map (fun p => (1, p.1 + 1, p.2))))
          ++ dtr
      ∧ (∀ e ∈ dtr, isAppendRow e = true) :=
  export_tabular_headers joined0 pre0 inpW.sections inpW.survey_name
    inpW.data (by decide)

/-- C2: every `export` call performs its steps in the fixed order
authenticate, create spreadsheet (exactly once, before any worksheet is
created), share with the service account, create worksheets / write
headers / write data (the body, which consists only of worksheet
operations; in the tabular branch the body is exactly worksheet
creations, then header writes, then data appends), then the XLSForm
insertion exactly when the `export_xlsform` flag is set, and finally the
deletion of the default worksheet `Sheet1`. -/
theorem export_step_order (cfg : Config) (inp : ExportInput)
    (joined : JoinedFn) (pre : PreFn) :
    «export» cfg inp joined pre
        = [ApiCall.login, ApiCall.newSpreadsheet cfg.spreadsheet_title,
            ApiCall.addServiceAccount]
          ++ exportBody cfg inp joined pre ++ exportXls cfg inp
          ++ exportDel cfg inp joined pre
    ∧ («export» cfg inp joined pre).filter isCreateSpreadsheet
        = [ApiCall.newSpreadsheet cfg.spreadsheet_title]
    ∧ (∀ e ∈ exportBody cfg inp joined pre ++ exportXls cfg inp,
        wsOp e = true)
    ∧ exportXls cfg inp
        = (if cfg.export_xlsform then _insert_xlsform inp.xlsform else [])
    ∧ (∀ e ∈ exportDel cfg inp joined pre,
        e = ApiCall.delWorksheet "Sheet1")
    ∧ (cfg.flatten_repeated_fields = false →
        exportBody cfg inp joined pre
            = (_create_worksheets initBuilderState inp.sections).2
              ++ (_insert_headers
                  (_create_worksheets initBuilderState
                    inp.sections).1.worksheets inp.sections).2
              ++ (_insert_data joined pre
                  { (_create_worksheets initBuilderState inp.sections).1 with
                    worksheets := (_insert_headers
                      (_create_worksheets initBuilderState
                        inp.sections).1.worksheets inp.sections).1 }
                  inp.sections inp.survey_name inp.data).2
          ∧ (∀ e ∈ (_create_worksheets initBuilderState inp.sections).2,
              isAddWorksheet e = true)
          ∧ (∀ e ∈ (_insert_headers
              (_create_worksheets initBuilderState
                inp.sections).1.worksheets inp.sections).2,
              isRowWrite e = true)
          ∧ (∀ e ∈ (_insert_data joined pre
              { (_create_worksheets initBuilderState inp.sections).1 with
                worksheets := (_insert_headers
                  (_create_worksheets initBuilderState
                    inp.sections).1.worksheets inp.sections).1 }
              inp.sections inp.survey_name inp.data).2,
              isAppendRow e = true)) := by
  refine ⟨rfl, export_filter_create cfg inp joined pre, ?_, rfl,
    exportDel_events cfg inp joined pre, ?_⟩
  · intro e he
    rcases List.mem_append.1 he with h1 | h1
    · exact exportBody_kinds cfg inp joined pre e h1
    · exact exportXls_kinds cfg inp e h1
  · intro hfl
    refine ⟨?_, create_worksheets_kinds inp.sections initBuilderState,
      insert_headers_kinds inp.sections _,
      insert_data_kinds joined pre _ inp.sections inp.survey_name inp.data⟩
    rw [exportBody, if_neg (by rw [hfl]; exact Bool.false_ne_true)]
    rfl

/-- Witness for C2: the spreadsheet-creation and tabular-decomposition
conjuncts at a concrete configuration and input, with the branch
hypothesis discharged. -/
theorem export_step_order_witness :
    («export» cfg0 inp0 joined0 pre0).filter isCreateSpreadsheet
        = [ApiCall.newSpreadsheet cfg0.spreadsheet_title]
    ∧ exportBody cfg0 inp0 joined0 pre0
        = (_create_worksheets initBuilderState inp0.sections).2
          ++ (_insert_headers
              (_create_worksheets initBuilderState
                inp0.sections).1.worksheets inp0.sections).2
          ++ (_insert_data joined0 pre0
              { (_create_worksheets initBuilderState inp0.sections).1 with
                worksheets := (_insert_headers
                  (_create_worksheets initBuilderState
                    inp0.sections).1.worksheets inp0.sections).1 }
              inp0.sections inp0.survey_name inp0.data).2 :=
  ⟨(export_step_order cfg0 inp0 joined0 pre0).2.1,
    ((export_step_order cfg0 inp0 joined0 pre0).2.2.2.2.2 rfl).1⟩

/-- C9: when the flattened CSV has zero rows, `export_flattened` returns
without creating the `raw` worksheet and without writing any row (its
trace is empty), and the rest of `export` still runs: the XLSForm
insertion still happens when its flag is set and the default worksheet
`Sheet1` is still deleted. -/
theorem export_flattened_empty (cfg : Config) (inp : ExportInput)
    (joined : JoinedFn) (pre : PreFn)
    (hfl : cfg.flatten_repeated_fields = true) (h0 : inp.csvRows = []) :
    exportBody cfg inp joined pre = []
    ∧ «export» cfg inp joined pre
        = [ApiCall.login, ApiCall.newSpreadsheet cfg.spreadsheet_title,
            ApiCall.addServiceAccount]
          ++ exportXls cfg inp ++ exportDel cfg inp joined pre
    ∧ (cfg.export_xlsform = true →
        exportXls cfg inp = _insert_xlsform inp.xlsform)
    ∧ ApiCall.delWorksheet "Sheet1" ∈ exportDel cfg inp joined pre := by
  have hbody : exportBody cfg inp joined pre = [] := by
    rw [exportBody, if_pos hfl, h0]
    rfl
  refine ⟨hbody, ?_, ?_, ?_⟩
  · rw [«export», hbody]
    rfl
  · intro hx
    rw [exportXls, if_pos hx]
  · rw [exportDel]
    refine List.mem_map.2 ⟨"Sheet1", ?_, rfl⟩
    exact List.mem_filter.2 ⟨by simp, by simp⟩

/-- Witness for C9: the empty-CSV conjuncts at a concrete flattened
configuration with the XLSForm flag set, hypotheses discharged. -/
theorem export_flattened_empty_witness :
    exportBody cfgC9 inp0 joined0 pre0 = []
    ∧ (cfgC9.export_xlsform = true →
        exportXls cfgC9 inp0 = _insert_xlsform inp0.xlsform)
    ∧ ApiCall.delWorksheet "Sheet1" ∈ exportDel cfgC9 inp0 joined0 pre0 :=
  ⟨(export_flattened_empty cfgC9 inp0 joined0 pre0 rfl rfl).1,
    (export_flattened_empty cfgC9 inp0 joined0 pre0 rfl rfl).2.2.1,
    (export_flattened_empty cfgC9 inp0 joined0 pre0 rfl rfl).2.2.2⟩

end GoogleSheets
